import Mathlib

/-!
Shallow embedding of the benchstats HTTP-probe benchmarking tool.

The Go program records lifecycle checkpoint timestamps for one HTTP GET
(`visit`), accumulates per-probe `Stat` records from concurrent goroutines
into a shared slice (`Main`), and averages the fields (`sumarize`).

Modelling conventions:
- `time.Time` values are integer nanoseconds (unbounded `Int`); the Go zero
  `time.Time` is modelled as `0`, matching the `IsZero()` checks.
- `time.Duration` / `int64` arithmetic is modelled exactly: `Time.Sub`
  saturates at the int64 bounds, `+` on int64 wraps modulo 2^64, and `/` on
  int64 truncates toward zero and panics on a zero divisor.  Go runtime
  panics are modelled as `Except.error`.
-/

set_option maxRecDepth 4000

/-- One per-probe measurement record; mirrors `type Stat struct` (six
`time.Duration` fields, i.e. int64 nanosecond counts). -/
structure Stat where
  DNSLookup : Int
  TCPConnection : Int
  TLSHandshake : Int
  ServerProccesing : Int
  ContentTransfer : Int
  Total : Int
deriving DecidableEq

/-- Wrap an integer into the int64 range, as Go two's-complement `int64`
arithmetic does on overflow (9223372036854775808 = 2^63). -/
def wrap64 (x : Int) : Int :=
  (x + 9223372036854775808) % 18446744073709551616 - 9223372036854775808

/-- Go `int64` addition (`a + b` on `.Nanoseconds()` values): wraps on
overflow. -/
def goAdd (a b : Int) : Int := wrap64 (a + b)

/-- Go `time.Time.Sub`: the nanosecond difference, saturated at the
`time.Duration` (int64) bounds. -/
def goSub (t u : Int) : Int :=
  max (-9223372036854775808) (min 9223372036854775807 (t - u))

/-- A Go runtime panic reachable in `sumarize`. -/
inductive GoPanic
  | divideByZero
deriving DecidableEq

/-- Go `int64` division: panics on a zero divisor, otherwise truncates
toward zero (the minInt64 / -1 case wraps, per the Go spec). -/
def goDiv (a b : Int) : Except GoPanic Int :=
  if b = 0 then Except.error GoPanic.divideByZero
  else Except.ok (wrap64 (Int.tdiv a b))

/-- The `Stat` built at the end of `visit` (the variant with the
first-byte fallback) from the six checkpoint variables as they stand when
`client.Do` returns: `done = time.Now()`, then
`if transferInit.IsZero() { transferInit = done }`,
`if dnsStart.IsZero() { dnsStart = dnsDone }`, then each field is a
`time.Time.Sub` of adjacent checkpoints. -/
def mkStat (dnsStart dnsDone connDone gotConn transferInit done : Int) : Stat :=
  let transferInit := if transferInit = 0 then done else transferInit
  let dnsStart := if dnsStart = 0 then dnsDone else dnsStart
  { DNSLookup := goSub dnsDone dnsStart
    TCPConnection := goSub connDone dnsDone
    TLSHandshake := goSub gotConn connDone
    ServerProccesing := goSub transferInit gotConn
    ContentTransfer := goSub done transferInit
    Total := goSub done dnsStart }

/-- The checkpoint values a completed probe of this program can leave in
`visit`'s local variables.  Each probe dials a fresh `http.Transport`, so
`ConnectStart`/`ConnectDone`/`GotConn` fire on every successful request and
`dnsDone` is set (by `DNSDone` or by the `ConnectStart` fallback) before
`connDone`.  `dnsStart` is `0` when DNS never started (literal address);
`transferInit` is `0` when `GotFirstResponseByte` never fired.  Fired
checkpoints carry causally ordered positive timestamps, and the probe's
elapsed spans fit in int64 (real `time.Now()` differences within one
request trivially do). -/
abbrev ValidTrace (dnsStart dnsDone connDone gotConn transferInit done : Int) : Prop :=
  0 < dnsDone ∧ dnsDone ≤ connDone ∧ connDone ≤ gotConn ∧ gotConn ≤ done ∧
  (dnsStart = 0 ∨ (0 < dnsStart ∧ dnsStart ≤ dnsDone)) ∧
  (transferInit = 0 ∨ (gotConn ≤ transferInit ∧ transferInit ≤ done)) ∧
  done - dnsDone ≤ 9223372036854775807 ∧
  (0 < dnsStart → done - dnsStart ≤ 9223372036854775807)

/-- The all-zero accumulator `summ := Stat{}` in `sumarize`. -/
def zeroStat : Stat :=
  { DNSLookup := 0, TCPConnection := 0, TLSHandshake := 0,
    ServerProccesing := 0, ContentTransfer := 0, Total := 0 }

/-- One iteration of the accumulation loop in `sumarize`: every field of
the accumulator gets the corresponding field of `s` added with int64
arithmetic. -/
def statAdd (summ s : Stat) : Stat :=
  { DNSLookup := goAdd summ.DNSLookup s.DNSLookup
    TCPConnection := goAdd summ.TCPConnection s.TCPConnection
    TLSHandshake := goAdd summ.TLSHandshake s.TLSHandshake
    ServerProccesing := goAdd summ.ServerProccesing s.ServerProccesing
    ContentTransfer := goAdd summ.ContentTransfer s.ContentTransfer
    Total := goAdd summ.Total s.Total }

/-- `sumarize` (the integer-division variant): fold all stats into `summ`,
then divide every field by `len(stats)`.  The division panics when the
list is empty. -/
def sumarize (stats : List Stat) : Except GoPanic Stat := do
  let summ := stats.foldl statAdd zeroStat
  let n : Int := stats.length
  let dns ← goDiv summ.DNSLookup n
  let tcp ← goDiv summ.TCPConnection n
  let tls ← goDiv summ.TLSHandshake n
  let sp ← goDiv summ.ServerProccesing n
  let ct ← goDiv summ.ContentTransfer n
  let tot ← goDiv summ.Total n
  return { DNSLookup := dns, TCPConnection := tcp, TLSHandshake := tls,
           ServerProccesing := sp, ContentTransfer := ct, Total := tot }

/-- The mathematically intended per-field truncated average: plain
(unwrapped) per-field sum, divided by the sample count with
truncation toward zero. -/
def avgStat (stats : List Stat) : Stat :=
  { DNSLookup := Int.tdiv ((stats.map Stat.DNSLookup).sum) stats.length
    TCPConnection := Int.tdiv ((stats.map Stat.TCPConnection).sum) stats.length
    TLSHandshake := Int.tdiv ((stats.map Stat.TLSHandshake).sum) stats.length
    ServerProccesing := Int.tdiv ((stats.map Stat.ServerProccesing).sum) stats.length
    ContentTransfer := Int.tdiv ((stats.map Stat.ContentTransfer).sum) stats.length
    Total := Int.tdiv ((stats.map Stat.Total).sum) stats.length }

/-- Sum of the five phase fields of a record (everything except Total). -/
def phaseSum (s : Stat) : Int :=
  s.DNSLookup + s.TCPConnection + s.TLSHandshake + s.ServerProccesing + s.ContentTransfer

/-- A stat whose only nonzero field is Total (used for concrete tests). -/
def pureTotal (t : Int) : Stat :=
  { DNSLookup := 0, TCPConnection := 0, TLSHandshake := 0,
    ServerProccesing := 0, ContentTransfer := 0, Total := t }

/-- All six fields non-negative. -/
abbrev StatNonneg (s : Stat) : Prop :=
  0 ≤ s.DNSLookup ∧ 0 ≤ s.TCPConnection ∧ 0 ≤ s.TLSHandshake ∧
  0 ≤ s.ServerProccesing ∧ 0 ≤ s.ContentTransfer ∧ 0 ≤ s.Total

/-- All six fields inside the int64 range (guaranteed by the Go types). -/
abbrev StatInRange (s : Stat) : Prop :=
  -9223372036854775808 ≤ s.DNSLookup ∧ s.DNSLookup ≤ 9223372036854775807 ∧
  -9223372036854775808 ≤ s.TCPConnection ∧ s.TCPConnection ≤ 9223372036854775807 ∧
  -9223372036854775808 ≤ s.TLSHandshake ∧ s.TLSHandshake ≤ 9223372036854775807 ∧
  -9223372036854775808 ≤ s.ServerProccesing ∧ s.ServerProccesing ≤ 9223372036854775807 ∧
  -9223372036854775808 ≤ s.ContentTransfer ∧ s.ContentTransfer ≤ 9223372036854775807 ∧
  -9223372036854775808 ≤ s.Total ∧ s.Total ≤ 9223372036854775807

/-- Every stat in the list non-negative. -/
abbrev StatsNonneg (stats : List Stat) : Prop := ∀ s ∈ stats, StatNonneg s

/-- Every per-field sum fits under the int64 maximum, so the accumulation
loop never overflows. -/
abbrev SumsBounded (stats : List Stat) : Prop :=
  (stats.map Stat.DNSLookup).sum ≤ 9223372036854775807 ∧
  (stats.map Stat.TCPConnection).sum ≤ 9223372036854775807 ∧
  (stats.map Stat.TLSHandshake).sum ≤ 9223372036854775807 ∧
  (stats.map Stat.ServerProccesing).sum ≤ 9223372036854775807 ∧
  (stats.map Stat.ContentTransfer).sum ≤ 9223372036854775807 ∧
  (stats.map Stat.Total).sum ≤ 9223372036854775807

/-- Outcome of one run of `Main` (part with `flag.FlagSet`): usage text
plus exit code 1 when validation trips, a printed summary plus exit code 0,
or a runtime panic. -/
inductive MainOutcome
  | usage
  | report (summary : Stat)
  | panicked (p : GoPanic)
deriving DecidableEq

/-- The validation test in `Main`:
`if len(fsArgs) == 0 || *nc == 0 { fs.Usage(); return 1 }`. -/
def validationFails (args : List String) (nc : Int) : Bool :=
  args.length == 0 || nc == 0

/-- How many probe goroutines the run launches: none when validation
trips, otherwise the `for i := 0; i < *nc; i++` loop body runs `nc` times
(zero times for negative `nc`). -/
def probesLaunched (args : List String) (nc : Int) : Nat :=
  if validationFails args nc then 0 else nc.toNat

/-- `Main` after flag parsing: validate, run the probes (whose collected
measurements are the `collected` parameter, since they depend on the
network and the scheduler), then `sumarize` the collection. -/
def Main (args : List String) (nc : Int) (collected : List Stat) : MainOutcome :=
  if validationFails args nc then MainOutcome.usage
  else
    match sumarize collected with
    | Except.ok s => MainOutcome.report s
    | Except.error p => MainOutcome.panicked p

/-- Go `strings.HasPrefix s pre` over character lists. -/
def hasPrefixChars : List Char → List Char → Bool
  | _, [] => true
  | [], _ :: _ => false
  | c :: cs, p :: ps => c == p && hasPrefixChars cs ps

/-- The URL normalization at the top of the channel-variant `visit`:
`if !strings.HasPrefix(url, "http") { url = "http://" + url }`. -/
def normalizeURL (url : List Char) : List Char :=
  if hasPrefixChars url ("http".toList) then url
  else ("http://".toList) ++ url

/-- Fixed measurement the first goroutine would append (concrete value for
the interleaving exhibit). -/
def probeStatA : Stat := pureTotal 1

/-- Fixed measurement the second goroutine would append. -/
def probeStatB : Stat := pureTotal 2

/-- Shared-memory state of a 2-goroutine run of the append sequence
`iStats := *stats; iStats = append(iStats, stat); *stats = iStats`.
`pcA`/`pcB`: 0 before the load, 1 after the load, 2 after the store. -/
structure RaceState where
  pcA : Nat
  pcB : Nat
  snapA : List Stat
  snapB : List Stat
  shared : List Stat
deriving DecidableEq

/-- Interleaving semantics of the two unsynchronized appends in `visit`:
each goroutine first loads the shared slice into a local (`iStats :=
*stats`), then stores its extended copy back (`*stats = iStats`).  The
load and the store are separate atomic steps, so steps of the two
goroutines may interleave. -/
inductive RaceStep : RaceState → RaceState → Prop
  | loadA (s : RaceState) (h : s.pcA = 0) :
      RaceStep s { s with pcA := 1, snapA := s.shared }
  | storeA (s : RaceState) (h : s.pcA = 1) :
      RaceStep s { s with pcA := 2, shared := s.snapA ++ [probeStatA] }
  | loadB (s : RaceState) (h : s.pcB = 0) :
      RaceStep s { s with pcB := 1, snapB := s.shared }
  | storeB (s : RaceState) (h : s.pcB = 1) :
      RaceStep s { s with pcB := 2, shared := s.snapB ++ [probeStatB] }

/-- Initial state: both goroutines before their load, shared slice empty
(`stats := []Stat{}`). -/
def raceInit : RaceState := { pcA := 0, pcB := 0, snapA := [], snapB := [], shared := [] }

/-- A final state in which both goroutines completed their append but the
shared slice holds a single measurement. -/
def raceFinal : RaceState := { pcA := 2, pcB := 2, snapA := [], snapB := [], shared := [probeStatB] }

lemma wrap64_id {x : Int} (h1 : -9223372036854775808 ≤ x)
    (h2 : x ≤ 9223372036854775807) : wrap64 x = x := by
  unfold wrap64
  omega

lemma goSub_eq {t u : Int} (h1 : u ≤ t) (h2 : t - u ≤ 9223372036854775807) :
    goSub t u = t - u := by
  unfold goSub
  rw [min_eq_right h2, max_eq_right (by omega)]

/-- C1: for every completed probe's measurement, the Total field equals
the exact sum of the five phase fields, with exact integer-nanosecond
equality: each phase is the difference of adjacent checkpoints (after the
zero-checkpoint fallbacks), so the five differences telescope to
done - dnsStart. -/
theorem mkStat_total_eq_sum (ds dd cd gc ti dn : Int)
    (h : ValidTrace ds dd cd gc ti dn) :
    (mkStat ds dd cd gc ti dn).Total =
      (mkStat ds dd cd gc ti dn).DNSLookup +
      (mkStat ds dd cd gc ti dn).TCPConnection +
      (mkStat ds dd cd gc ti dn).TLSHandshake +
      (mkStat ds dd cd gc ti dn).ServerProccesing +
      (mkStat ds dd cd gc ti dn).ContentTransfer := by
  obtain ⟨h1, h2, h3, h4, h5, h6, h7, h8⟩ := h
  rcases h5 with h5 | ⟨h5a, h5b⟩ <;> rcases h6 with h6 | ⟨h6a, h6b⟩ <;>
    simp only [mkStat, goSub] <;> split_ifs <;> omega

/-- Witness: a concrete fully-fired trace for the C1 theorem. -/
theorem mkStat_total_eq_sum_witness :
    (mkStat 10 20 30 40 50 60).Total =
      (mkStat 10 20 30 40 50 60).DNSLookup +
      (mkStat 10 20 30 40 50 60).TCPConnection +
      (mkStat 10 20 30 40 50 60).TLSHandshake +
      (mkStat 10 20 30 40 50 60).ServerProccesing +
      (mkStat 10 20 30 40 50 60).ContentTransfer :=
  mkStat_total_eq_sum 10 20 30 40 50 60 (by decide)

/-- C2: every one of the six duration fields of a completed probe's
measurement is non-negative, including when the DNS checkpoints never
fired (dnsStart = 0) or the first-byte checkpoint never fired
(transferInit = 0). -/
theorem mkStat_fields_nonneg (ds dd cd gc ti dn : Int)
    (h : ValidTrace ds dd cd gc ti dn) :
    0 ≤ (mkStat ds dd cd gc ti dn).DNSLookup ∧
    0 ≤ (mkStat ds dd cd gc ti dn).TCPConnection ∧
    0 ≤ (mkStat ds dd cd gc ti dn).TLSHandshake ∧
    0 ≤ (mkStat ds dd cd gc ti dn).ServerProccesing ∧
    0 ≤ (mkStat ds dd cd gc ti dn).ContentTransfer ∧
    0 ≤ (mkStat ds dd cd gc ti dn).Total := by
  obtain ⟨h1, h2, h3, h4, h5, h6, h7, h8⟩ := h
  rcases h5 with h5 | ⟨h5a, h5b⟩ <;> rcases h6 with h6 | ⟨h6a, h6b⟩ <;>
    simp only [mkStat, goSub] <;> split_ifs <;> omega

/-- Witness: C2 at a trace whose DNS and first-byte checkpoints never
fired (both fallbacks taken). -/
theorem mkStat_fields_nonneg_witness :
    0 ≤ (mkStat 0 20 30 40 0 60).DNSLookup ∧
    0 ≤ (mkStat 0 20 30 40 0 60).TCPConnection ∧
    0 ≤ (mkStat 0 20 30 40 0 60).TLSHandshake ∧
    0 ≤ (mkStat 0 20 30 40 0 60).ServerProccesing ∧
    0 ≤ (mkStat 0 20 30 40 0 60).ContentTransfer ∧
    0 ≤ (mkStat 0 20 30 40 0 60).Total :=
  mkStat_fields_nonneg 0 20 30 40 0 60 (by decide)

/-- C6: when the first-byte checkpoint never fires (transferInit left at
its zero value), visit falls back to the completion time, so the
ContentTransfer field is exactly zero and in particular non-negative. -/
theorem visit_empty_body_zero_transfer (ds dd cd gc dn : Int) :
    (mkStat ds dd cd gc 0 dn).ContentTransfer = 0 ∧
    0 ≤ (mkStat ds dd cd gc 0 dn).ContentTransfer := by
  simp only [mkStat, goSub]
  split_ifs <;> omega

/-- C3: sumarize on the empty result set does not return an error value of
the program's own: it hits the integer division by zero
(len(stats) = 0) and panics. -/
theorem sumarize_empty_divide_by_zero :
    sumarize [] = Except.error GoPanic.divideByZero := by
  rfl

lemma foldl_statAdd_proj (f : Stat → Int)
    (hf : ∀ a s, f (statAdd a s) = goAdd (f a) (f s)) :
    ∀ (l : List Stat) (acc : Stat),
      f (List.foldl statAdd acc l) =
        List.foldl (fun a s => goAdd a (f s)) (f acc) l := by
  intro l
  induction l with
  | nil => intro acc; rfl
  | cons s l ih =>
      intro acc
      simp only [List.foldl_cons, ih, hf]

lemma foldl_goAdd_eq_sum (f : Stat → Int) :
    ∀ (l : List Stat) (acc : Int), 0 ≤ acc → (∀ s ∈ l, 0 ≤ f s) →
      acc + (l.map f).sum ≤ 9223372036854775807 →
      List.foldl (fun a s => goAdd a (f s)) acc l = acc + (l.map f).sum := by
  intro l
  induction l with
  | nil => intro acc _ _ _; simp
  | cons s l ih =>
      intro acc hacc hnn hb
      have hfs : 0 ≤ f s := hnn s (List.mem_cons_self s l)
      have hsum : 0 ≤ (l.map f).sum := by
        apply List.sum_nonneg
        intro x hx
        obtain ⟨t, ht, rfl⟩ := List.mem_map.mp hx
        exact hnn t (List.mem_cons_of_mem s ht)
      have hb' : acc + (f s + (l.map f).sum) ≤ 9223372036854775807 := by
        simpa using hb
      have hstep : goAdd acc (f s) = acc + f s := by
        unfold goAdd
        exact wrap64_id (by omega) (by omega)
      simp only [List.foldl_cons, hstep,
        ih (acc + f s) (by omega) (fun t ht => hnn t (List.mem_cons_of_mem s ht)) (by omega),
        List.map_cons, List.sum_cons]
      omega

lemma fold_field (f : Stat → Int) (hf : ∀ a s, f (statAdd a s) = goAdd (f a) (f s))
    (hz : f zeroStat = 0) (stats : List Stat)
    (hnn : ∀ s ∈ stats, 0 ≤ f s)
    (hb : (stats.map f).sum ≤ 9223372036854775807) :
    f (stats.foldl statAdd zeroStat) = (stats.map f).sum := by
  rw [foldl_statAdd_proj f hf, hz]
  have := foldl_goAdd_eq_sum f stats 0 le_rfl hnn (by omega)
  simpa using this

lemma goDiv_ok {a b : Int} (ha : 0 ≤ a) (hamax : a ≤ 9223372036854775807)
    (hb : 0 < b) : goDiv a b = Except.ok (Int.tdiv a b) := by
  unfold goDiv
  rw [if_neg (by omega)]
  congr 1
  apply wrap64_id
  · have := Int.tdiv_nonneg ha (le_of_lt hb)
    omega
  · rw [Int.tdiv_eq_ediv ha (le_of_lt hb)]
    exact le_trans (Int.ediv_le_self b ha) hamax

lemma sumarize_of_goDiv (stats : List Stat) (n1 n2 n3 n4 n5 n6 : Int)
    (h1 : goDiv (stats.foldl statAdd zeroStat).DNSLookup stats.length = Except.ok n1)
    (h2 : goDiv (stats.foldl statAdd zeroStat).TCPConnection stats.length = Except.ok n2)
    (h3 : goDiv (stats.foldl statAdd zeroStat).TLSHandshake stats.length = Except.ok n3)
    (h4 : goDiv (stats.foldl statAdd zeroStat).ServerProccesing stats.length = Except.ok n4)
    (h5 : goDiv (stats.foldl statAdd zeroStat).ContentTransfer stats.length = Except.ok n5)
    (h6 : goDiv (stats.foldl statAdd zeroStat).Total stats.length = Except.ok n6) :
    sumarize stats = Except.ok
      { DNSLookup := n1, TCPConnection := n2, TLSHandshake := n3,
        ServerProccesing := n4, ContentTransfer := n5, Total := n6 } := by
  unfold sumarize
  dsimp only
  rw [h1, h2, h3, h4, h5, h6]
  rfl

lemma sum_field_nonneg (f : Stat → Int) (stats : List Stat)
    (hnn : ∀ s ∈ stats, 0 ≤ f s) : 0 ≤ (stats.map f).sum := by
  apply List.sum_nonneg
  intro x hx
  obtain ⟨t, ht, rfl⟩ := List.mem_map.mp hx
  exact hnn t ht

lemma sumarize_eq_avg (stats : List Stat) (hne : stats ≠ [])
    (hnn : StatsNonneg stats) (hb : SumsBounded stats) :
    sumarize stats = Except.ok (avgStat stats) := by
  obtain ⟨hb1, hb2, hb3, hb4, hb5, hb6⟩ := hb
  have hlen : (0 : Int) < stats.length := by
    have : stats.length ≠ 0 := by simpa [List.length_eq_zero] using hne
    omega
  have hn1 : ∀ s ∈ stats, 0 ≤ s.DNSLookup := fun s hs => (hnn s hs).1
  have hn2 : ∀ s ∈ stats, 0 ≤ s.TCPConnection := fun s hs => (hnn s hs).2.1
  have hn3 : ∀ s ∈ stats, 0 ≤ s.TLSHandshake := fun s hs => (hnn s hs).2.2.1
  have hn4 : ∀ s ∈ stats, 0 ≤ s.ServerProccesing := fun s hs => (hnn s hs).2.2.2.1
  have hn5 : ∀ s ∈ stats, 0 ≤ s.ContentTransfer := fun s hs => (hnn s hs).2.2.2.2.1
  have hn6 : ∀ s ∈ stats, 0 ≤ s.Total := fun s hs => (hnn s hs).2.2.2.2.2
  have hf1 := fold_field Stat.DNSLookup (fun a s => rfl) rfl stats hn1 hb1
  have hf2 := fold_field Stat.TCPConnection (fun a s => rfl) rfl stats hn2 hb2
  have hf3 := fold_field Stat.TLSHandshake (fun a s => rfl) rfl stats hn3 hb3
  have hf4 := fold_field Stat.ServerProccesing (fun a s => rfl) rfl stats hn4 hb4
  have hf5 := fold_field Stat.ContentTransfer (fun a s => rfl) rfl stats hn5 hb5
  have hf6 := fold_field Stat.Total (fun a s => rfl) rfl stats hn6 hb6
  exact sumarize_of_goDiv stats _ _ _ _ _ _
    (by rw [hf1]; exact goDiv_ok (sum_field_nonneg _ _ hn1) hb1 hlen)
    (by rw [hf2]; exact goDiv_ok (sum_field_nonneg _ _ hn2) hb2 hlen)
    (by rw [hf3]; exact goDiv_ok (sum_field_nonneg _ _ hn3) hb3 hlen)
    (by rw [hf4]; exact goDiv_ok (sum_field_nonneg _ _ hn4) hb4 hlen)
    (by rw [hf5]; exact goDiv_ok (sum_field_nonneg _ _ hn5) hb5 hlen)
    (by rw [hf6]; exact goDiv_ok (sum_field_nonneg _ _ hn6) hb6 hlen)

/-- First sample for the exact-mean counterexample: 1 ns of DNS lookup,
Total 1 ns (satisfies the per-sample sum identity). -/
def cexStat1 : Stat :=
  { DNSLookup := 1, TCPConnection := 0, TLSHandshake := 0,
    ServerProccesing := 0, ContentTransfer := 0, Total := 1 }

/-- Second sample for the exact-mean counterexample: 2 ns of DNS lookup,
Total 2 ns. -/
def cexStat2 : Stat :=
  { DNSLookup := 2, TCPConnection := 0, TLSHandshake := 0,
    ServerProccesing := 0, ContentTransfer := 0, Total := 2 }

/-- C4 counterexample: on the two-sample set with DNSLookup values 1 ns
and 2 ns, sumarize returns a DNSLookup of 1 ns, but the arithmetic mean of
the field is 3/2 ns, so the summary field does not equal the arithmetic
mean. -/
theorem sumarize_not_exact_mean_cex :
    (sumarize [cexStat1, cexStat2]).map Stat.DNSLookup = Except.ok 1 ∧
    ((cexStat1.DNSLookup : ℚ) + (cexStat2.DNSLookup : ℚ)) / 2 ≠ (1 : ℚ) := by
  constructor
  · rfl
  · norm_num [cexStat1, cexStat2]

lemma goDiv_one (a : Int) (h1 : -9223372036854775808 ≤ a)
    (h2 : a ≤ 9223372036854775807) : goDiv a 1 = Except.ok a := by
  unfold goDiv
  rw [if_neg one_ne_zero, Int.tdiv_one, wrap64_id h1 h2]

/-- C4 amended: sumarize of a non-empty result set (with non-negative
fields whose sums stay in int64 range) returns the per-field sum divided
by the sample count with truncating integer division, not the exact
arithmetic mean; consequently a singleton set returns its element
bit-for-bit, and the three totals 1 s, 2 s, 3 s average to exactly 2 s. -/
theorem sumarize_truncated_mean :
    (∀ stats, stats ≠ [] → StatsNonneg stats → SumsBounded stats →
      sumarize stats = Except.ok (avgStat stats)) ∧
    (∀ m, StatInRange m → sumarize [m] = Except.ok m) ∧
    (sumarize [pureTotal 1000000000, pureTotal 2000000000,
      pureTotal 3000000000]).map Stat.Total = Except.ok 2000000000 := by
  refine ⟨sumarize_eq_avg, ?_, by rfl⟩
  intro m hm
  obtain ⟨l1, u1, l2, u2, l3, u3, l4, u4, l5, u5, l6, u6⟩ := hm
  refine Eq.trans (sumarize_of_goDiv [m] m.DNSLookup m.TCPConnection
    m.TLSHandshake m.ServerProccesing m.ContentTransfer m.Total
    ?_ ?_ ?_ ?_ ?_ ?_) rfl
  · show goDiv (wrap64 (0 + m.DNSLookup)) 1 = Except.ok m.DNSLookup
    rw [zero_add, wrap64_id l1 u1]
    exact goDiv_one _ l1 u1
  · show goDiv (wrap64 (0 + m.TCPConnection)) 1 = Except.ok m.TCPConnection
    rw [zero_add, wrap64_id l2 u2]
    exact goDiv_one _ l2 u2
  · show goDiv (wrap64 (0 + m.TLSHandshake)) 1 = Except.ok m.TLSHandshake
    rw [zero_add, wrap64_id l3 u3]
    exact goDiv_one _ l3 u3
  · show goDiv (wrap64 (0 + m.ServerProccesing)) 1 = Except.ok m.ServerProccesing
    rw [zero_add, wrap64_id l4 u4]
    exact goDiv_one _ l4 u4
  · show goDiv (wrap64 (0 + m.ContentTransfer)) 1 = Except.ok m.ContentTransfer
    rw [zero_add, wrap64_id l5 u5]
    exact goDiv_one _ l5 u5
  · show goDiv (wrap64 (0 + m.Total)) 1 = Except.ok m.Total
    rw [zero_add, wrap64_id l6 u6]
    exact goDiv_one _ l6 u6

/-- Witness: the C4 amended theorem applied at a concrete two-element set
and at a concrete singleton. -/
theorem sumarize_truncated_mean_witness :
    sumarize [pureTotal 2, pureTotal 4] = Except.ok (avgStat [pureTotal 2, pureTotal 4]) ∧
    sumarize [pureTotal 7] = Except.ok (pureTotal 7) :=
  ⟨sumarize_truncated_mean.1 [pureTotal 2, pureTotal 4] (by decide) (by decide) (by decide),
   sumarize_truncated_mean.2.1 (pureTotal 7) (by decide)⟩

lemma wrap64_wrap_add (x a : Int) : wrap64 (wrap64 x + a) = wrap64 (x + a) := by
  unfold wrap64
  omega

lemma statAdd_right_comm (b s t : Stat) :
    statAdd (statAdd b s) t = statAdd (statAdd b t) s := by
  have key : ∀ x a c : Int, goAdd (goAdd x a) c = goAdd (goAdd x c) a := by
    intro x a c
    unfold goAdd
    rw [wrap64_wrap_add, wrap64_wrap_add]
    ring_nf
  simp only [statAdd, Stat.mk.injEq]
  exact ⟨key _ _ _, key _ _ _, key _ _ _, key _ _ _, key _ _ _, key _ _ _⟩

instance : RightCommutative statAdd := ⟨fun s a b => statAdd_right_comm s a b⟩

lemma sumarize_perm (l l' : List Stat) (hp : l.Perm l') :
    sumarize l = sumarize l' := by
  have hfold : l.foldl statAdd zeroStat = l'.foldl statAdd zeroStat :=
    hp.foldl_eq zeroStat
  have hlen : l.length = l'.length := hp.length_eq
  unfold sumarize
  dsimp only
  rw [hfold, hlen]

/-- C10: sumarize divides each per-field sum by the sample count with
integer division truncating toward zero (6/2 of the example splits 0 and 3
into average 1, not the nearest 2), and the report is a deterministic
function of the multiset of measurements: permuting the result set leaves
the output unchanged. -/
theorem sumarize_deterministic_truncation :
    (∀ l l' : List Stat, l.Perm l' → sumarize l = sumarize l') ∧
    (∀ stats, stats ≠ [] → StatsNonneg stats → SumsBounded stats →
      sumarize stats = Except.ok (avgStat stats)) ∧
    (sumarize [pureTotal 0, pureTotal 3]).map Stat.Total = Except.ok 1 := by
  exact ⟨sumarize_perm, sumarize_eq_avg, by rfl⟩

/-- Witness: the C10 theorem applied at a concrete permutation and at a
concrete singleton. -/
theorem sumarize_deterministic_truncation_witness :
    sumarize [probeStatA, probeStatB] = sumarize [probeStatB, probeStatA] ∧
    sumarize [pureTotal 5] = Except.ok (avgStat [pureTotal 5]) :=
  ⟨sumarize_deterministic_truncation.1 _ _ (List.Perm.swap probeStatB probeStatA []),
   sumarize_deterministic_truncation.2.1 [pureTotal 5] (by decide) (by decide) (by decide)⟩

/-- Third sample for the averaging counterexample: 1 ns of TCP connection,
Total 1 ns (satisfies the per-sample sum identity). -/
def cexStat3 : Stat :=
  { DNSLookup := 0, TCPConnection := 1, TLSHandshake := 0,
    ServerProccesing := 0, ContentTransfer := 0, Total := 1 }

/-- C7 counterexample: both input samples satisfy the sum identity, yet
the summary has Total 1 ns while its five phase fields sum to 0 ns —
truncating integer division is not linear, so averaging does not preserve
the identity. -/
theorem sumarize_avg_sum_identity_cex :
    phaseSum cexStat1 = cexStat1.Total ∧
    phaseSum cexStat3 = cexStat3.Total ∧
    (sumarize [cexStat1, cexStat3]).map (fun r => (r.Total, phaseSum r)) =
      Except.ok (1, 0) ∧
    (1 : Int) ≠ 0 := by
  refine ⟨rfl, rfl, rfl, by norm_num⟩

lemma nat_div_two_bound (x y n : ℕ) (hn : 0 < n) :
    x / n + y / n ≤ (x + y) / n ∧ (x + y) / n ≤ x / n + y / n + 1 := by
  rw [Nat.add_div hn]
  split_ifs <;> omega

lemma nat_div_five_bound (a b c d e n : ℕ) (hn : 0 < n) :
    a / n + b / n + c / n + d / n + e / n ≤ (a + b + c + d + e) / n ∧
    (a + b + c + d + e) / n ≤ a / n + b / n + c / n + d / n + e / n + 4 := by
  have h1 := nat_div_two_bound a b n hn
  have h2 := nat_div_two_bound (a + b) c n hn
  have h3 := nat_div_two_bound (a + b + c) d n hn
  have h4 := nat_div_two_bound (a + b + c + d) e n hn
  omega

lemma sum_total_eq_sum_phases (l : List Stat)
    (hid : ∀ s ∈ l, phaseSum s = s.Total) :
    (l.map Stat.Total).sum =
      (l.map Stat.DNSLookup).sum + (l.map Stat.TCPConnection).sum +
      (l.map Stat.TLSHandshake).sum + (l.map Stat.ServerProccesing).sum +
      (l.map Stat.ContentTransfer).sum := by
  induction l with
  | nil => simp
  | cons s l ih =>
      have hs := hid s (List.mem_cons_self s l)
      have ih' := ih (fun t ht => hid t (List.mem_cons_of_mem s ht))
      simp only [List.map_cons, List.sum_cons]
      unfold phaseSum at hs
      omega

/-- C7 amended: for a non-empty result set of non-negative measurements
that each satisfy the sum identity (and whose total sum fits in int64),
the averaged report satisfies the identity only up to truncation slack:
the averaged Total is at least the sum of the five averaged phases and
exceeds it by at most 4 ns. -/
theorem sumarize_sum_identity_slack (stats : List Stat) (hne : stats ≠ [])
    (hnn : StatsNonneg stats)
    (hid : ∀ s ∈ stats, phaseSum s = s.Total)
    (hbt : (stats.map Stat.Total).sum ≤ 9223372036854775807) :
    sumarize stats = Except.ok (avgStat stats) ∧
    phaseSum (avgStat stats) ≤ (avgStat stats).Total ∧
    (avgStat stats).Total ≤ phaseSum (avgStat stats) + 4 := by
  have hn1 : ∀ s ∈ stats, 0 ≤ s.DNSLookup := fun s hs => (hnn s hs).1
  have hn2 : ∀ s ∈ stats, 0 ≤ s.TCPConnection := fun s hs => (hnn s hs).2.1
  have hn3 : ∀ s ∈ stats, 0 ≤ s.TLSHandshake := fun s hs => (hnn s hs).2.2.1
  have hn4 : ∀ s ∈ stats, 0 ≤ s.ServerProccesing := fun s hs => (hnn s hs).2.2.2.1
  have hn5 : ∀ s ∈ stats, 0 ≤ s.ContentTransfer := fun s hs => (hnn s hs).2.2.2.2.1
  have hs1 := sum_field_nonneg Stat.DNSLookup stats hn1
  have hs2 := sum_field_nonneg Stat.TCPConnection stats hn2
  have hs3 := sum_field_nonneg Stat.TLSHandshake stats hn3
  have hs4 := sum_field_nonneg Stat.ServerProccesing stats hn4
  have hs5 := sum_field_nonneg Stat.ContentTransfer stats hn5
  have htot := sum_total_eq_sum_phases stats hid
  have hball : SumsBounded stats := by
    refine ⟨by omega, by omega, by omega, by omega, by omega, hbt⟩
  refine ⟨sumarize_eq_avg stats hne hnn hball, ?_⟩
  have hk : 0 < stats.length := List.length_pos.mpr hne
  have ha1 := Int.toNat_of_nonneg hs1
  have ha2 := Int.toNat_of_nonneg hs2
  have ha3 := Int.toNat_of_nonneg hs3
  have ha4 := Int.toNat_of_nonneg hs4
  have ha5 := Int.toNat_of_nonneg hs5
  have htot2 : (stats.map Stat.Total).sum =
      (((stats.map Stat.DNSLookup).sum.toNat +
        (stats.map Stat.TCPConnection).sum.toNat +
        (stats.map Stat.TLSHandshake).sum.toNat +
        (stats.map Stat.ServerProccesing).sum.toNat +
        (stats.map Stat.ContentTransfer).sum.toNat : ℕ) : Int) := by
    push_cast
    omega
  have hd1 : (avgStat stats).DNSLookup =
      (((stats.map Stat.DNSLookup).sum.toNat / stats.length : ℕ) : Int) := by
    show Int.tdiv (stats.map Stat.DNSLookup).sum stats.length = _
    rw [← ha1]
    exact (Int.ofNat_tdiv _ _).symm
  have hd2 : (avgStat stats).TCPConnection =
      (((stats.map Stat.TCPConnection).sum.toNat / stats.length : ℕ) : Int) := by
    show Int.tdiv (stats.map Stat.TCPConnection).sum stats.length = _
    rw [← ha2]
    exact (Int.ofNat_tdiv _ _).symm
  have hd3 : (avgStat stats).TLSHandshake =
      (((stats.map Stat.TLSHandshake).sum.toNat / stats.length : ℕ) : Int) := by
    show Int.tdiv (stats.map Stat.TLSHandshake).sum stats.length = _
    rw [← ha3]
    exact (Int.ofNat_tdiv _ _).symm
  have hd4 : (avgStat stats).ServerProccesing =
      (((stats.map Stat.ServerProccesing).sum.toNat / stats.length : ℕ) : Int) := by
    show Int.tdiv (stats.map Stat.ServerProccesing).sum stats.length = _
    rw [← ha4]
    exact (Int.ofNat_tdiv _ _).symm
  have hd5 : (avgStat stats).ContentTransfer =
      (((stats.map Stat.ContentTransfer).sum.toNat / stats.length : ℕ) : Int) := by
    show Int.tdiv (stats.map Stat.ContentTransfer).sum stats.length = _
    rw [← ha5]
    exact (Int.ofNat_tdiv _ _).symm
  have hd6 : (avgStat stats).Total =
      ((((stats.map Stat.DNSLookup).sum.toNat +
         (stats.map Stat.TCPConnection).sum.toNat +
         (stats.map Stat.TLSHandshake).sum.toNat +
         (stats.map Stat.ServerProccesing).sum.toNat +
         (stats.map Stat.ContentTransfer).sum.toNat) / stats.length : ℕ) : Int) := by
    show Int.tdiv (stats.map Stat.Total).sum stats.length = _
    rw [htot2]
    exact (Int.ofNat_tdiv _ _).symm
  have hbound := nat_div_five_bound
    (stats.map Stat.DNSLookup).sum.toNat
    (stats.map Stat.TCPConnection).sum.toNat
    (stats.map Stat.TLSHandshake).sum.toNat
    (stats.map Stat.ServerProccesing).sum.toNat
    (stats.map Stat.ContentTransfer).sum.toNat
    stats.length hk
  unfold phaseSum
  rw [hd1, hd2, hd3, hd4, hd5, hd6]
  constructor
  · exact_mod_cast hbound.1
  · exact_mod_cast hbound.2

/-- Witness: the C7 amended theorem applied at a concrete singleton. -/
theorem sumarize_sum_identity_slack_witness :
    sumarize [cexStat1] = Except.ok (avgStat [cexStat1]) ∧
    phaseSum (avgStat [cexStat1]) ≤ (avgStat [cexStat1]).Total ∧
    (avgStat [cexStat1]).Total ≤ phaseSum (avgStat [cexStat1]) + 4 :=
  sumarize_sum_identity_slack [cexStat1] (by decide) (by decide) (by decide) (by decide)

/-- C5: the unsynchronized append in visit admits an interleaving (both
goroutines load the shared slice before either stores) under which both
probes complete yet the shared result set ends with a single entry — the
first goroutine's measurement is lost, so a fixed-count run with
concurrency 2 can finish with fewer than 2 entries. -/
theorem visit_race_loses_measurement :
    Relation.ReflTransGen RaceStep raceInit raceFinal ∧
    raceFinal.pcA = 2 ∧ raceFinal.pcB = 2 ∧
    raceFinal.shared.length = 1 ∧ probeStatA ∉ raceFinal.shared := by
  refine ⟨?_, rfl, rfl, rfl, by decide⟩
  have s1 : RaceStep raceInit
      { pcA := 1, pcB := 0, snapA := [], snapB := [], shared := [] } :=
    RaceStep.loadA raceInit rfl
  have s2 : RaceStep
      { pcA := 1, pcB := 0, snapA := [], snapB := [], shared := [] }
      { pcA := 1, pcB := 1, snapA := [], snapB := [], shared := [] } :=
    RaceStep.loadB _ rfl
  have s3 : RaceStep
      { pcA := 1, pcB := 1, snapA := [], snapB := [], shared := [] }
      { pcA := 2, pcB := 1, snapA := [], snapB := [], shared := [probeStatA] } :=
    RaceStep.storeA _ rfl
  have s4 : RaceStep
      { pcA := 2, pcB := 1, snapA := [], snapB := [], shared := [probeStatA] }
      raceFinal :=
    RaceStep.storeB _ rfl
  exact Relation.ReflTransGen.head s1 (Relation.ReflTransGen.head s2
    (Relation.ReflTransGen.head s3 (Relation.ReflTransGen.single s4)))

/-- C8 counterexample: with a URL argument present and concurrency -1
(non-positive), Main does not surface the usage/exit-1 InvalidInput
outcome: the check only trips on concurrency exactly 0, so the run
proceeds, launches zero probes, and dies in sumarize with the
divide-by-zero panic. -/
theorem main_negative_concurrency_cex :
    Main ["example.com"] (-1) [] = MainOutcome.panicked GoPanic.divideByZero ∧
    Main ["example.com"] (-1) [] ≠ MainOutcome.usage ∧
    probesLaunched ["example.com"] (-1) = 0 := by
  refine ⟨rfl, ?_, rfl⟩
  intro h
  exact MainOutcome.noConfusion h

/-- C8 amended: a missing URL argument or concurrency exactly 0 makes Main
print usage and return exit code 1 before launching any probe; but a
negative concurrency is not rejected — it launches zero probes and the run
then panics with integer divide by zero in sumarize instead of surfacing
an input error. -/
theorem main_validation_spec (args : List String) (nc : Int) :
    ((args = [] ∨ nc = 0) →
      (∀ collected, Main args nc collected = MainOutcome.usage) ∧
      probesLaunched args nc = 0) ∧
    (args ≠ [] → nc < 0 →
      probesLaunched args nc = 0 ∧
      Main args nc [] = MainOutcome.panicked GoPanic.divideByZero) := by
  constructor
  · intro h
    have hv : validationFails args nc = true := by
      rcases h with h | h
      · subst h
        simp [validationFails]
      · subst h
        simp [validationFails]
    constructor
    · intro collected
      simp [Main, hv]
    · simp [probesLaunched, hv]
  · intro hargs hneg
    have hv : validationFails args nc = false := by
      simp only [validationFails, Bool.or_eq_false_iff, beq_eq_false_iff_ne]
      constructor
      · simpa [List.length_eq_zero] using hargs
      · omega
    constructor
    · simp only [probesLaunched, hv, Bool.false_eq_true, if_false]
      omega
    · simp only [Main, hv, Bool.false_eq_true, if_false]
      rfl

/-- Witness: the C8 amended theorem applied at concrete configurations
(url with concurrency -1; missing url with concurrency 1). -/
theorem main_validation_spec_witness :
    Main ["u"] (-1) [] = MainOutcome.panicked GoPanic.divideByZero ∧
    probesLaunched ["u"] (-1) = 0 ∧
    Main [] 1 [] = MainOutcome.usage :=
  ⟨((main_validation_spec ["u"] (-1)).2 (by decide) (by decide)).2,
   ((main_validation_spec ["u"] (-1)).2 (by decide) (by decide)).1,
   ((main_validation_spec [] 1).1 (Or.inl rfl)).1 []⟩

lemma hasPrefixChars_append (s p q : List Char) :
    hasPrefixChars s (p ++ q) = true → hasPrefixChars s p = true := by
  induction p generalizing s with
  | nil =>
      intro _
      cases s <;> rfl
  | cons x xs ih =>
      cases s with
      | nil =>
          intro h
          simp [hasPrefixChars] at h
      | cons c cs =>
          intro h
          simp only [List.cons_append, hasPrefixChars, Bool.and_eq_true] at h ⊢
          exact ⟨h.1, ih cs h.2⟩

/-- C9 counterexample: the URL ftp://example.com carries a scheme, yet the
normalization does not pass it through unchanged — the check is a literal
string-prefix test on http, so the code prepends a second scheme. -/
theorem normalizeURL_scheme_cex :
    hasPrefixChars ("ftp://example.com".toList) ("ftp://".toList) = true ∧
    normalizeURL ("ftp://example.com".toList) ≠ ("ftp://example.com".toList) ∧
    normalizeURL ("ftp://example.com".toList) = ("http://ftp://example.com".toList) := by
  exact ⟨by decide, by decide, by decide⟩

/-- C9 amended: any URL beginning with the literal text http — in
particular every http:// or https:// URL — passes through unchanged, and
any URL not beginning with that literal (whether or not it carries some
other scheme) gets http:// prepended. -/
theorem normalizeURL_spec (u : List Char) :
    (hasPrefixChars u ("http://".toList) = true → normalizeURL u = u) ∧
    (hasPrefixChars u ("https://".toList) = true → normalizeURL u = u) ∧
    (hasPrefixChars u ("http".toList) = false →
      normalizeURL u = ("http://".toList) ++ u) := by
  refine ⟨?_, ?_, ?_⟩
  · intro h
    have heq : ("http".toList) ++ ("://".toList) = ("http://".toList) := by decide
    have h4 : hasPrefixChars u ("http".toList) = true :=
      hasPrefixChars_append u ("http".toList) ("://".toList) (by rw [heq]; exact h)
    unfold normalizeURL
    rw [h4]
    rfl
  · intro h
    have heq : ("http".toList) ++ ("s://".toList) = ("https://".toList) := by decide
    have h4 : hasPrefixChars u ("http".toList) = true :=
      hasPrefixChars_append u ("http".toList) ("s://".toList) (by rw [heq]; exact h)
    unfold normalizeURL
    rw [h4]
    rfl
  · intro h
    unfold normalizeURL
    rw [h]
    rfl

/-- Witness: the C9 amended theorem applied at an https URL and at a
schemeless host. -/
theorem normalizeURL_spec_witness :
    normalizeURL ("https://a".toList) = ("https://a".toList) ∧
    normalizeURL ("a.com".toList) = ("http://".toList) ++ ("a.com".toList) :=
  ⟨(normalizeURL_spec ("https://a".toList)).2.1 (by decide),
   (normalizeURL_spec ("a.com".toList)).2.2 (by decide)⟩
